import Mathlib

/-!
Verification of the match-result reconciliation and orchestration core.

The definitions below are shallow embeddings of the TypeScript source:
* `SaveResult` embeds `src/backend/lib/save-result.ts` (`saveFaceitResult`):
  the score loop with halftime/overtime side-swap logic, the player identity
  resolver `resolvePlayerId`, the event-record mapping, and the ELO
  application.
* `Game` embeds `src/backend/lib/game.ts`: the `isRunningAndThrow` pre-launch
  guard, the `Server.start` control flow, and the `GAME_OVER` score
  adjustment.

JavaScript numbers appearing as round winners are modelled as `Int`;
JavaScript `undefined`/`null` as `Option`; thrown exceptions as `Except`.
-/

namespace SaveResult

/-- A JSON-ish payload value, as far as the reconciler inspects it
(`typeof w === "number"` is the only type test performed). -/
inductive Val where
  | num (n : Int)
  | str (s : String)
  | boolean (b : Bool)
  | other
deriving DecidableEq, Repr

/-- One `roundover` scorebot event: `ev.payload?.winner`, which may be
absent (`none`) or present with any payload value. -/
structure RoundOverEvent where
  winner : Option Val
deriving DecidableEq, Repr

/-- `typeof w === "number"`: extract the winner only when it is numeric. -/
def numWinner : Option Val → Option Int
  | some (Val.num n) => some n
  | _ => none

/-- The mutable locals of the score loop in `saveFaceitResult`:
`scoreA`, `scoreB`, `half` and `rounds` (the latter starts at 1). -/
structure ScoreState where
  scoreA : Nat
  scoreB : Nat
  half : Nat
  rounds : Nat
deriving DecidableEq, Repr

/-- `let scoreA = 0; let scoreB = 0; let half = 0; let rounds = 1;` -/
def initState : ScoreState := ⟨0, 0, 0, 1⟩

/-- `const flipWinner = (winner) => (winner === 0 ? 1 : 0);` -/
def flipWinner (winner : Int) : Int := if winner = 0 then 1 else 0

/-- The reconciliation configuration: `maxRounds`, `maxRoundsOvertime`
from the match rules, and the team ids the payload's `sides` object maps
to the `t` and `ct` starting sides. -/
structure ScoreConfig where
  maxRounds : Nat
  maxRoundsOT : Nat
  tTeamId : Int
  ctTeamId : Int
deriving DecidableEq, Repr

/-- `Math.ceil(a / b)` for nonnegative integers (`b > 0`). -/
def ceilDiv (a b : Nat) : Nat := (a + b - 1) / b

/-- One iteration of the `for (const ev of roundEvents)` loop in
`saveFaceitResult`.  A non-numeric `winner` hits `continue` before any of
the state is touched.  Within overtime (`rounds > maxRounds`) the raw
winner is inverted when the 1-based overtime block index is odd, and the
half counter advances at the midpoint and end of each block; within
regulation the winner is inverted when `half` is odd, and the half counter
advances at `maxRounds / 2` and `maxRounds`.  (JS `rounds === maxRounds/2`
uses real division, hence the `2 * rounds = maxRounds` test; with
`maxRoundsOT = 0` the JS expressions evaluate to `NaN`/`Infinity` and all
the comparisons are false.)  The resolved winner is mapped through the
side assignment and credited to team 1 (`scoreA`) or team 2 (`scoreB`). -/
def stepRound (cfg : ScoreConfig) (st : ScoreState) (ev : RoundOverEvent) : ScoreState :=
  match numWinner ev.winner with
  | none => st
  | some w =>
    let invertedAndHalf : Int × Nat :=
      if st.rounds > cfg.maxRounds then
        if cfg.maxRoundsOT = 0 then
          (w, st.half)
        else
          let roundsOT := st.rounds - cfg.maxRounds
          let otRound := (roundsOT - 1) % cfg.maxRoundsOT + 1
          let otIndex := ceilDiv roundsOT cfg.maxRoundsOT
          let doInvert := otIndex % 2 = 1
          let isSideFlip := 2 * otRound = cfg.maxRoundsOT ∨ otRound = cfg.maxRoundsOT
          (if doInvert then flipWinner w else w,
           if isSideFlip then st.half + 1 else st.half)
      else
        let isSideFlip := 2 * st.rounds = cfg.maxRounds ∨ st.rounds = cfg.maxRounds
        (if st.half % 2 = 1 then flipWinner w else w,
         if isSideFlip then st.half + 1 else st.half)
    let effectiveWinner := invertedAndHalf.1
    let half' := invertedAndHalf.2
    let winnerTeamId := if effectiveWinner = 0 then cfg.tTeamId else cfg.ctTeamId
    let scoreA' := if winnerTeamId = 1 then st.scoreA + 1 else st.scoreA
    let scoreB' := if winnerTeamId ≠ 1 ∧ winnerTeamId = 2 then st.scoreB + 1 else st.scoreB
    { scoreA := scoreA', scoreB := scoreB', half := half', rounds := st.rounds + 1 }

/-- The whole score loop of `saveFaceitResult` over the ordered
`roundover` events. -/
def computeScores (cfg : ScoreConfig) (events : List RoundOverEvent) : ScoreState :=
  events.foldl (stepRound cfg) initState

/-- Convenience: a round-over event carrying a numeric winner. -/
def roundEv (w : Int) : RoundOverEvent := ⟨some (Val.num w)⟩

end SaveResult

namespace SaveResult

/-- The concrete scenario of the spec: regulation limit 6, overtime
block 6, raw winners `[0,0,0,1,1,1]`. -/
def scenarioEvents : List RoundOverEvent :=
  [roundEv 0, roundEv 0, roundEv 0, roundEv 1, roundEv 1, roundEv 1]

end SaveResult

/-- C1: the claim states that with `R = 6`, `O = 6` and raw winners
`[0,0,0,1,1,1]` the final tally is 3–3.  It is false: with the side
assignment `t ↦ team 1`, `ct ↦ team 2` the half-parity inversion maps
the last three raw winners back to the starting side, so the code
computes 6–0, not 3–3. -/
theorem c1_counterexample :
    ¬ ((SaveResult.computeScores ⟨6, 6, 1, 2⟩ SaveResult.scenarioEvents).scoreA = 3 ∧
       (SaveResult.computeScores ⟨6, 6, 1, 2⟩ SaveResult.scenarioEvents).scoreB = 3) := by
  decide

/-- C1 (amended): with `R = 6`, `O = 6` and raw winners `[0,0,0,1,1,1]`,
the half counter flips exactly at rounds 3 and 6 (it is 0 through round 2,
1 after round 3 through round 5, and 2 after round 6), and the final tally
is 6 for the team assigned the starting `t` side and 0 for the other;
swapping the starting side assignment swaps which logical team is labelled
A but preserves the 6–0 tally. -/
theorem c1_amended :
    (SaveResult.computeScores ⟨6, 6, 1, 2⟩ (SaveResult.scenarioEvents.take 2)).half = 0 ∧
    (SaveResult.computeScores ⟨6, 6, 1, 2⟩ (SaveResult.scenarioEvents.take 3)).half = 1 ∧
    (SaveResult.computeScores ⟨6, 6, 1, 2⟩ (SaveResult.scenarioEvents.take 5)).half = 1 ∧
    (SaveResult.computeScores ⟨6, 6, 1, 2⟩ SaveResult.scenarioEvents).half = 2 ∧
    (SaveResult.computeScores ⟨6, 6, 1, 2⟩ SaveResult.scenarioEvents).scoreA = 6 ∧
    (SaveResult.computeScores ⟨6, 6, 1, 2⟩ SaveResult.scenarioEvents).scoreB = 0 ∧
    (SaveResult.computeScores ⟨6, 6, 2, 1⟩ SaveResult.scenarioEvents).scoreA = 0 ∧
    (SaveResult.computeScores ⟨6, 6, 2, 1⟩ SaveResult.scenarioEvents).scoreB = 6 := by
  decide

namespace SaveResult

/-- One loop iteration with a numeric winner adds exactly one point to
`scoreA + scoreB`, provided the side assignment maps `t`/`ct` onto the
team ids 1 and 2 (the only assignments the match setup produces). -/
theorem stepRound_score_sum (cfg : ScoreConfig) (st : ScoreState) (ev : RoundOverEvent)
    (hperm : (cfg.tTeamId = 1 ∧ cfg.ctTeamId = 2) ∨ (cfg.tTeamId = 2 ∧ cfg.ctTeamId = 1))
    (hnum : numWinner ev.winner = some 0 ∨ numWinner ev.winner = some 1) :
    (stepRound cfg st ev).scoreA + (stepRound cfg st ev).scoreB
      = st.scoreA + st.scoreB + 1 := by
  rcases hnum with h | h <;> rcases hperm with ⟨h1, h2⟩ | ⟨h1, h2⟩ <;>
    simp only [stepRound, h, h1, h2] <;> split_ifs <;> simp_arith <;> omega

/-- Folding the score loop over events that all carry a numeric winner
adds the event count to `scoreA + scoreB`, from any intermediate state. -/
theorem foldl_stepRound_score_sum (cfg : ScoreConfig)
    (hperm : (cfg.tTeamId = 1 ∧ cfg.ctTeamId = 2) ∨ (cfg.tTeamId = 2 ∧ cfg.ctTeamId = 1)) :
    ∀ (evs : List RoundOverEvent) (st : ScoreState),
      (∀ ev ∈ evs, numWinner ev.winner = some 0 ∨ numWinner ev.winner = some 1) →
      (evs.foldl (stepRound cfg) st).scoreA + (evs.foldl (stepRound cfg) st).scoreB
        = st.scoreA + st.scoreB + evs.length := by
  intro evs
  induction evs with
  | nil => intro st _; simp
  | cons e es ih =>
    intro st h
    have he := h e (List.mem_cons_self e es)
    have hes : ∀ ev ∈ es, numWinner ev.winner = some 0 ∨ numWinner ev.winner = some 1 :=
      fun ev hm => h ev (List.mem_cons_of_mem e hm)
    simp only [List.foldl_cons, List.length_cons]
    rw [ih (stepRound cfg st e) hes, stepRound_score_sum cfg st e hperm he]
    omega

end SaveResult

/-- C4: for a buffered sequence of `roundover` events each carrying a
numeric winner index 0 or 1, the reconciler's final tally satisfies
`scoreA + scoreB = N` where `N` is the event count, for every
regulation/overtime configuration (the payload's side assignment maps
`t`/`ct` onto the two team ids 1 and 2, as the match setup always does). -/
theorem c4_tally_sums_to_count (cfg : SaveResult.ScoreConfig)
    (events : List SaveResult.RoundOverEvent)
    (hperm : (cfg.tTeamId = 1 ∧ cfg.ctTeamId = 2) ∨ (cfg.tTeamId = 2 ∧ cfg.ctTeamId = 1))
    (hnum : ∀ ev ∈ events,
      SaveResult.numWinner ev.winner = some 0 ∨ SaveResult.numWinner ev.winner = some 1) :
    (SaveResult.computeScores cfg events).scoreA
      + (SaveResult.computeScores cfg events).scoreB = events.length := by
  have h := SaveResult.foldl_stepRound_score_sum cfg hperm events SaveResult.initState hnum
  simpa [SaveResult.computeScores, SaveResult.initState] using h

/-- C4 witness: the theorem applied at `R = 6`, `O = 6`, sides `t ↦ 1`,
`ct ↦ 2`, and the two-event sequence with winners `[0, 1]`. -/
theorem c4_tally_sums_to_count_witness :
    (SaveResult.computeScores ⟨6, 6, 1, 2⟩ [SaveResult.roundEv 0, SaveResult.roundEv 1]).scoreA
      + (SaveResult.computeScores ⟨6, 6, 1, 2⟩
          [SaveResult.roundEv 0, SaveResult.roundEv 1]).scoreB = 2 :=
  c4_tally_sums_to_count ⟨6, 6, 1, 2⟩ [SaveResult.roundEv 0, SaveResult.roundEv 1]
    (Or.inl ⟨rfl, rfl⟩) (by decide)

/-- C6: a `roundover` event whose `winner` payload field is missing or
non-numeric (`typeof w !== "number"`) is skipped by `continue`: the loop
state — both side tallies, the half counter and the running round
counter — is left entirely unchanged, and since `stepRound` is a total
function no exception is raised. -/
theorem c6_malformed_event_skipped (cfg : SaveResult.ScoreConfig)
    (st : SaveResult.ScoreState) (ev : SaveResult.RoundOverEvent)
    (h : SaveResult.numWinner ev.winner = none) :
    SaveResult.stepRound cfg st ev = st := by
  simp [SaveResult.stepRound, h]

/-- C6 witness: the theorem applied to a `winner` field holding a string. -/
theorem c6_malformed_event_skipped_witness :
    SaveResult.stepRound ⟨6, 6, 1, 2⟩ SaveResult.initState ⟨some (SaveResult.Val.str "x")⟩
      = SaveResult.initState :=
  c6_malformed_event_skipped ⟨6, 6, 1, 2⟩ SaveResult.initState ⟨some (SaveResult.Val.str "x")⟩ rfl

namespace SaveResult

/-- A roster entry as flattened by `saveFaceitResult` (`MatchPlayerLite`). -/
structure MatchPlayerLite where
  id : Int
  name : String
  steamId : Option String
  serverId : Option String
deriving DecidableEq, Repr

/-- `players.find((p) => p.steamId === steamId)` followed by `.id`. -/
def findBySteamId (players : List MatchPlayerLite) (steamId : String) : Option Int :=
  (players.find? (fun p => p.steamId == some steamId)).map (fun p => p.id)

/-- `players.find((p) => p.serverId === serverId)` followed by `.id`. -/
def findByServerId (players : List MatchPlayerLite) (serverId : String) : Option Int :=
  (players.find? (fun p => p.serverId == some serverId)).map (fun p => p.id)

/-- `players.find((p) => p.name === name)` followed by `.id`. -/
def findByName (players : List MatchPlayerLite) (name : String) : Option Int :=
  (players.find? (fun p => p.name == name)).map (fun p => p.id)

/-- The `resolvePlayerId` closure of `saveFaceitResult`.  The durable-id
strategy is guarded by `steamId && steamId !== "BOT"` (JS truthiness:
present and non-empty), the server-id and name strategies by plain
truthiness; each strategy returns early on a hit and otherwise falls
through to the next; no hit at all yields `null`. -/
def resolvePlayerId (players : List MatchPlayerLite)
    (name steamId serverId : Option String) : Option Int :=
  let bySteam :=
    match steamId with
    | some s => if s ≠ "" ∧ s ≠ "BOT" then findBySteamId players s else none
    | none => none
  match bySteam with
  | some i => some i
  | none =>
    let byServer :=
      match serverId with
      | some s => if s ≠ "" then findByServerId players s else none
      | none => none
    match byServer with
    | some i => some i
    | none =>
      match name with
      | some n => if n ≠ "" then findByName players n else none
      | none => none

/-- Modelled from the claim's words, for comparison with the code: try, in
order, durable (steam) id match, in-session server id match, exact name
match, returning the first hit, with no exception for any particular
durable-id value. -/
def claimResolvePlayerId (players : List MatchPlayerLite)
    (name steamId serverId : Option String) : Option Int :=
  match (match steamId with | some s => findBySteamId players s | none => none) with
  | some i => some i
  | none =>
    match (match serverId with | some s => findByServerId players s | none => none) with
    | some i => some i
    | none =>
      match name with
      | some n => findByName players n
      | none => none

/-- The amended specification of the resolver, written as an ordered list
of resolver strategies (first hit wins): durable id — skipped when the id
is missing, empty, or the literal `"BOT"` — then in-session server id,
then exact name (each skipped when missing or empty). -/
def resolveStrategies (name steamId serverId : Option String) :
    List (List MatchPlayerLite → Option Int) :=
  [ fun players =>
      match steamId with
      | some s => if s ≠ "" ∧ s ≠ "BOT" then findBySteamId players s else none
      | none => none,
    fun players =>
      match serverId with
      | some s => if s ≠ "" then findByServerId players s else none
      | none => none,
    fun players =>
      match name with
      | some n => if n ≠ "" then findByName players n else none
      | none => none ]

/-- Run an ordered list of resolver strategies, returning the first hit. -/
def firstHit (players : List MatchPlayerLite)
    (strategies : List (List MatchPlayerLite → Option Int)) : Option Int :=
  match strategies with
  | [] => none
  | f :: rest =>
    match f players with
    | some i => some i
    | none => firstHit players rest

/-- A kill/assist participant reference as found in a raw scorebot event
payload: identified by in-session name and optional durable/server ids. -/
structure ParticipantRef where
  name : Option String
  steamId : Option String
  serverId : Option String
deriving DecidableEq, Repr

/-- A raw scorebot event as consumed by the event-mapping pass
(`event.payload.attacker ?? null`, etc.). -/
structure RawEvent where
  attacker : Option ParticipantRef
  victim : Option ParticipantRef
  assist : Option ParticipantRef
deriving DecidableEq, Repr

/-- The attributed ids stored on one created event record. -/
structure EventRecord where
  attackerId : Option Int
  victimId : Option Int
  assistId : Option Int
deriving DecidableEq, Repr

/-- `resolvePlayerId(ref?.name ?? null, ref?.steamId ?? null,
ref?.serverId ?? null)`. -/
def resolveRef (players : List MatchPlayerLite) (r : Option ParticipantRef) : Option Int :=
  resolvePlayerId players (r.bind ParticipantRef.name) (r.bind ParticipantRef.steamId)
    (r.bind ParticipantRef.serverId)

/-- The `events.map(...)` pass of `saveFaceitResult`: every buffered event
produces exactly one record to create, with possibly-`null` attribution. -/
def eventsToCreate (players : List MatchPlayerLite) (events : List RawEvent) :
    List EventRecord :=
  events.map (fun e =>
    ⟨resolveRef players e.attacker, resolveRef players e.victim, resolveRef players e.assist⟩)

end SaveResult

/-- C5 counterexample: take a roster whose only entry carries the durable
id `"BOT"`, and a reference with durable id `"BOT"` and a non-matching
name.  The claimed strategy order resolves it by durable id to player 1,
but the code skips the durable-id strategy for the literal `"BOT"` and
resolves to `null`. -/
theorem c5_counterexample :
    SaveResult.claimResolvePlayerId [⟨1, "alice", some "BOT", none⟩]
        (some "bob") (some "BOT") none = some 1 ∧
    SaveResult.resolvePlayerId [⟨1, "alice", some "BOT", none⟩]
        (some "bob") (some "BOT") none = none := by
  decide

/-- C5 (amended): identity resolution tries, strictly in order, durable
(steam) id match — skipped when the id is missing, empty, or the literal
`"BOT"` — then in-session server id match, then exact name match (each
skipped when missing or empty), returning the first hit; a reference
matching none of the strategies resolves to `null`, and every buffered
event is still persisted (the created-record list has exactly one record
per event, attribution fields possibly `null`). -/
theorem c5_amended :
    (∀ (players : List SaveResult.MatchPlayerLite) (name steamId serverId : Option String),
      SaveResult.resolvePlayerId players name steamId serverId
        = SaveResult.firstHit players (SaveResult.resolveStrategies name steamId serverId)) ∧
    (∀ (players : List SaveResult.MatchPlayerLite) (events : List SaveResult.RawEvent),
      (SaveResult.eventsToCreate players events).length = events.length) := by
  constructor
  · intro players name steamId serverId
    simp only [SaveResult.resolvePlayerId, SaveResult.resolveStrategies, SaveResult.firstHit]
    repeat (first | rfl | (split <;> try simp_all))
  · intro players events
    simp [SaveResult.eventsToCreate]

/-- C10: the durable-id strategy is skipped entirely when the reference's
durable id is the literal `"BOT"`: resolution then behaves exactly as if
no durable id were present at all, falling through to server-id and name
matching — even when some roster entry itself carries steamId `"BOT"`. -/
theorem c10_bot_steam_id_skipped (players : List SaveResult.MatchPlayerLite)
    (name serverId : Option String) :
    SaveResult.resolvePlayerId players name (some "BOT") serverId
      = SaveResult.resolvePlayerId players name none serverId := by
  rfl

namespace SaveResult

/-- A rating holder as updated by `saveFaceitResult` (a `player` row's
`elo`, or the user profile's `faceitElo`). -/
structure RatedPlayer where
  id : Int
  elo : Int
deriving DecidableEq, Repr

/-- The pre-agreed rating pair stored in the match payload
(`eloGain` / `eloLoss`). -/
structure EloPair where
  eloGain : Int
  eloLoss : Int
deriving DecidableEq, Repr

/-- `playerWin`: whether the user's team won, from the user's team id and
the computed tallies. -/
def playerWin (playerTeamId : Int) (scoreA scoreB : Nat) : Bool :=
  (playerTeamId == 1 && scoreA > scoreB) || (playerTeamId == 2 && scoreB > scoreA)

/-- `const delta = playerWin ? eloGain : -eloLoss;` -/
def eloDelta (pw : Bool) (pair : EloPair) : Int :=
  if pw then pair.eloGain else -pair.eloLoss

/-- The rating state after the ELO pass: the user profile's `faceitElo`,
and the two rosters' `elo` values. -/
structure EloOutcome where
  profileElo : Int
  teamA : List RatedPlayer
  teamB : List RatedPlayer
deriving DecidableEq, Repr

/-- The ELO application pass of `saveFaceitResult`: one `delta` is
computed from `playerWin`; the profile gets `faceitElo + delta`, every
team-A player other than the user gets `elo + delta` (the user's own
player row is left to the profile update), and every team-B player gets
`elo + (-delta)` (`increment: -delta`). -/
def applyFaceitElo (pw : Bool) (pair : EloPair) (userId : Int) (profileElo : Int)
    (teamA teamB : List RatedPlayer) : EloOutcome :=
  let delta := eloDelta pw pair
  { profileElo := profileElo + delta
    teamA := teamA.map (fun p => if p.id = userId then p else ⟨p.id, p.elo + delta⟩)
    teamB := teamB.map (fun p => ⟨p.id, p.elo + (-delta)⟩) }

end SaveResult

/-- C3 counterexample: pre-agreed pair gain = 25, loss = 10; the user
(id 1) is on team A, which wins 2–1, so team B is the losing logical
side.  The claim demands that team B's holder (id 7, rating 1000) lose
its own pre-agreed magnitude, ending at 1000 − 10 = 990; the code applies
the single winner-derived delta and ends it at 1000 − 25 = 975. -/
theorem c3_counterexample :
    (SaveResult.applyFaceitElo (SaveResult.playerWin 1 2 1) ⟨25, 10⟩ 1 500
        [⟨1, 0⟩] [⟨7, 1000⟩]).teamB = [⟨7, 975⟩] ∧
    (SaveResult.applyFaceitElo (SaveResult.playerWin 1 2 1) ⟨25, 10⟩ 1 500
        [⟨1, 0⟩] [⟨7, 1000⟩]).teamB ≠ [⟨7, 1000 - 10⟩] := by
  decide

/-- C3 (amended): for every finalized match, the reconciler computes one
delta — `+gain` when the user's team won and `−loss` when it lost — adds
it to the user's profile rating and to every non-user holder on the
user's team, and subtracts that same delta from every holder on the
opposing team.  The two sides' per-holder deltas are exact negatives
(zero-sum), but the losing side loses the winning side's single
magnitude rather than its own pre-agreed one. -/
theorem c3_amended (pw : Bool) (pair : SaveResult.EloPair) (userId profileElo : Int)
    (teamA teamB : List SaveResult.RatedPlayer) :
    (SaveResult.applyFaceitElo pw pair userId profileElo teamA teamB).profileElo
        = profileElo + (if pw then pair.eloGain else -pair.eloLoss) ∧
    (∀ p ∈ teamA, p.id ≠ userId →
      SaveResult.RatedPlayer.mk p.id (p.elo + (if pw then pair.eloGain else -pair.eloLoss))
        ∈ (SaveResult.applyFaceitElo pw pair userId profileElo teamA teamB).teamA) ∧
    (∀ p ∈ teamB,
      SaveResult.RatedPlayer.mk p.id (p.elo - (if pw then pair.eloGain else -pair.eloLoss))
        ∈ (SaveResult.applyFaceitElo pw pair userId profileElo teamA teamB).teamB) := by
  refine ⟨rfl, ?_, ?_⟩
  · intro p hp hne
    simp only [SaveResult.applyFaceitElo, SaveResult.eloDelta, List.mem_map]
    exact ⟨p, hp, by simp [hne]⟩
  · intro p hp
    simp only [SaveResult.applyFaceitElo, SaveResult.eloDelta, List.mem_map]
    exact ⟨p, hp, by simp [sub_eq_add_neg]⟩

/-- C3 amended witness: the theorem applied with the user's team winning
(`playerWin 1 2 1 = true`), pair (25, 10), user id 1, profile rating 500,
a non-user teammate (id 3, rating 100) and one opponent (id 7, rating
1000). -/
theorem c3_amended_witness :
    (SaveResult.applyFaceitElo true ⟨25, 10⟩ 1 500 [⟨1, 0⟩, ⟨3, 100⟩] [⟨7, 1000⟩]).profileElo
        = 500 + 25 ∧
    SaveResult.RatedPlayer.mk 3 (100 + 25)
        ∈ (SaveResult.applyFaceitElo true ⟨25, 10⟩ 1 500 [⟨1, 0⟩, ⟨3, 100⟩] [⟨7, 1000⟩]).teamA ∧
    SaveResult.RatedPlayer.mk 7 (1000 - 25)
        ∈ (SaveResult.applyFaceitElo true ⟨25, 10⟩ 1 500 [⟨1, 0⟩, ⟨3, 100⟩] [⟨7, 1000⟩]).teamB := by
  obtain ⟨h1, h2, h3⟩ := c3_amended true ⟨25, 10⟩ 1 500 [⟨1, 0⟩, ⟨3, 100⟩] [⟨7, 1000⟩]
  exact ⟨h1, h2 ⟨3, 100⟩ (by simp) (by decide), h3 ⟨7, 1000⟩ (by simp)⟩

namespace Game

/-- `Constants.ErrorCode.ERUNNING` from the shared constants. -/
def ERUNNING : String := "ERUNNING"

/-- The fields set by the `ProcessRunningError` constructor:
`errno = -1337`, `code = ERUNNING`, `path = message`. -/
structure ProcessRunningError where
  errno : Int
  code : String
  path : String
deriving DecidableEq, Repr

/-- `new ProcessRunningError(message)`. -/
def mkProcessRunningError (message : String) : ProcessRunningError :=
  ⟨-1337, ERUNNING, message⟩

/-- Whether the character list `s` begins with the pattern `p`. -/
def startsWithChars : List Char → List Char → Bool
  | [], _ => true
  | _ :: _, [] => false
  | p :: ps, c :: cs => p == c && startsWithChars ps cs

/-- Whether the pattern occurs as a contiguous run anywhere in `s`. -/
def includesChars (pat : List Char) : List Char → Bool
  | [] => pat.isEmpty
  | c :: rest => startsWithChars pat (c :: rest) || includesChars pat rest

/-- JS `stdout.includes(sub)`: substring containment. -/
def strIncludes (s sub : String) : Bool := includesChars sub.data s.data

/-- Node `path.basename` as used on the Windows process listing: the last
path component, splitting on both separator characters and ignoring
trailing separators. -/
def basename (s : String) : String :=
  let isSep := fun c : Char => c == '/' || c == '\\'
  let trimmed := s.data.reverse.dropWhile isSep
  let nameRev := trimmed.takeWhile (fun c => !isSep c)
  if nameRev.isEmpty then s else String.mk nameRev.reverse

/-- The error Node's promisified `exec` rejects with. -/
structure ExecError where
  message : String
deriving DecidableEq, Repr

/-- What `isRunningAndThrow` can fail with: the propagated `exec`
rejection, or the `ProcessRunningError` it throws itself. -/
inductive GuardError where
  | execFailed (e : ExecError)
  | processRunning (e : ProcessRunningError)
deriving DecidableEq, Repr

/-- The body of `isRunningAndThrow` after `exec('tasklist')` has yielded
`stdout`: throw `ProcessRunningError` when the executable's basename
occurs in the listing and no game-client process is tracked
(`isRunning && !gameClientProcess`); otherwise return normally. -/
def isRunningAndThrowWith (stdout name : String) (gameClientTracked : Bool) :
    Except ProcessRunningError Unit :=
  let isRunning := strIncludes stdout (basename name)
  if isRunning && !gameClientTracked then
    Except.error (mkProcessRunningError (name ++ " is running!"))
  else
    Except.ok ()

/-- The whole of `isRunningAndThrow`: `await exec('tasklist')` and then
the check.  There is no try/catch around the `await`, so a rejected
`exec` propagates to the caller unchanged. -/
def isRunningAndThrow (execResult : Except ExecError String) (name : String)
    (gameClientTracked : Bool) : Except GuardError Unit :=
  match execResult with
  | Except.error e => Except.error (GuardError.execFailed e)
  | Except.ok stdout =>
    match isRunningAndThrowWith stdout name gameClientTracked with
    | Except.error pe => Except.error (GuardError.processRunning pe)
    | Except.ok _ => Except.ok ()

end Game

/-- C8: given the process-table listing, the pre-launch guard throws the
`ProcessRunningError` (errno −1337, code `ERUNNING`) if and only if the
executable's basename occurs in the listing and no game-client process is
tracked as started by this session; in every other case it returns
normally. -/
theorem c8_guard_iff (stdout name : String) (tracked : Bool) :
    (Game.isRunningAndThrowWith stdout name tracked
        = Except.error ⟨-1337, "ERUNNING", name ++ " is running!"⟩
      ↔ (Game.strIncludes stdout (Game.basename name) = true ∧ tracked = false)) ∧
    (Game.isRunningAndThrowWith stdout name tracked = Except.ok ()
      ↔ ¬ (Game.strIncludes stdout (Game.basename name) = true ∧ tracked = false)) := by
  cases h : Game.strIncludes stdout (Game.basename name) <;> cases tracked <;>
    simp [Game.isRunningAndThrowWith, Game.mkProcessRunningError, Game.ERUNNING, h]

/-- C8 witness: the theorem applied to a listing containing `game.exe`
with no tracked client (the guard throws), and to the same listing with a
tracked client (the guard returns normally). -/
theorem c8_guard_iff_witness :
    Game.isRunningAndThrowWith "hl.exe  1234 Console" "C:\\Games\\hl.exe" false
        = Except.error ⟨-1337, "ERUNNING", "C:\\Games\\hl.exe is running!"⟩ ∧
    Game.isRunningAndThrowWith "hl.exe  1234 Console" "C:\\Games\\hl.exe" true
        = Except.ok () := by
  constructor
  · exact (c8_guard_iff "hl.exe  1234 Console" "C:\\Games\\hl.exe" false).1.mpr
      ⟨by decide, rfl⟩
  · exact (c8_guard_iff "hl.exe  1234 Console" "C:\\Games\\hl.exe" true).2.mpr
      (by simp)

/-- C9 counterexample: when `exec('tasklist')` rejects, `isRunningAndThrow`
does not return normally — the inspection failure propagates to the
caller instead of being logged and treated as "not running". -/
theorem c9_counterexample :
    Game.isRunningAndThrow (Except.error ⟨"spawn tasklist ENOENT"⟩) "hl.exe" false
        = Except.error (Game.GuardError.execFailed ⟨"spawn tasklist ENOENT"⟩) ∧
    Game.isRunningAndThrow (Except.error ⟨"spawn tasklist ENOENT"⟩) "hl.exe" false
        ≠ Except.ok () := by
  exact ⟨rfl, fun h => Except.noConfusion h⟩

/-- C9 (amended): if inspecting the OS process table fails, the guard
does not fail open: the `exec` rejection propagates unchanged to the
caller (for every executable name and tracking state). -/
theorem c9_amended (e : Game.ExecError) (name : String) (tracked : Bool) :
    Game.isRunningAndThrow (Except.error e) name tracked
      = Except.error (Game.GuardError.execFailed e) := by
  rfl

namespace Game

/-- The `GAME_OVER` handler's score adjustment in `Server.start`: sum the
reported score array; when the total exceeds the regulation limit,
compute `overtimeCount = Math.ceil(excess / maxRoundsOvertime)` and
reverse the score pair exactly when that count is odd.  (With
`maxRoundsOvertime = 0` the JS count is `Infinity`, whose parity test is
false, so nothing is reversed.) -/
def gameOverScoreAdjust (maxRounds maxRoundsOT : Nat) (score : List Nat) : List Nat :=
  let totalRoundsPlayed := score.foldl (· + ·) 0
  if totalRoundsPlayed > maxRounds then
    if maxRoundsOT = 0 then score
    else
      let totalRoundsOvertime := totalRoundsPlayed - maxRounds
      let overtimeCount := SaveResult.ceilDiv totalRoundsOvertime maxRoundsOT
      if overtimeCount % 2 = 1 then score.reverse else score
  else score

/-- The games `Server.start` dispatches on. -/
inductive GameKind where
  | cs16
  | cs2
  | css
  | czero
  | csgo
deriving DecidableEq, Repr

/-- The externally observable steps of `Server.start`, in program order. -/
inductive StartAction where
  | prepare
  | launchClientCS16
  | launchClientCS2
  | launchClientCSS
  | launchClientCZERO
  | launchServerCSGO
  | launchClientCSGO
  | rconInitAttempt
  | logWarnRcon
  | attachClientHandlers
  | scorebotStart
  | logErrorScorebot
  | subscribeScorebotEvents
  | awaitGameOver
deriving DecidableEq, Repr

/-- The failures `Server.start` could surface through its promise. -/
inductive StartError where
  | rconConnectError
  | scorebotError
deriving DecidableEq, Repr

/-- Outcomes of `Server.start` are compared up to decidable equality. -/
instance : DecidableEq (Except StartError Unit) := fun a b =>
  match a, b with
  | Except.ok (), Except.ok () => isTrue rfl
  | Except.error e, Except.error f =>
    match decEq e f with
    | isTrue h => isTrue (by rw [h])
    | isFalse h => isFalse (fun hc => h (by cases hc; rfl))
  | Except.ok _, Except.error _ => isFalse (fun hc => Except.noConfusion hc)
  | Except.error _, Except.ok _ => isFalse (fun hc => Except.noConfusion hc)

/-- Step 2 of `Server.start`: the per-game launch dispatch (CSGO launches
the dedicated server first and its client only later, in step 4). -/
def launchSteps : GameKind → List StartAction
  | GameKind.cs16 => [StartAction.launchClientCS16]
  | GameKind.cs2 => [StartAction.launchClientCS2]
  | GameKind.css => [StartAction.launchClientCSS]
  | GameKind.czero => [StartAction.launchClientCZERO]
  | GameKind.csgo => [StartAction.launchServerCSGO]

/-- The control flow of `Server.start` as a trace of actions plus the
promise outcome.  `rcon.init()` is wrapped in try/catch: a failure only
appends a `log.warn` and execution continues; a `scorebot.start()`
failure is logged and rethrown, rejecting the promise; otherwise the
handler subscriptions are installed and the promise resolves on
`GAME_OVER`. -/
def serverStart (game : GameKind) (rconInitOk scorebotStartOk clientTracked : Bool) :
    List StartAction × Except StartError Unit :=
  let t1 := StartAction.prepare :: launchSteps game
  let t2 := t1 ++ [StartAction.rconInitAttempt]
    ++ (if rconInitOk then [] else [StartAction.logWarnRcon])
  let t3 := t2 ++ (if game = GameKind.csgo then [StartAction.launchClientCSGO] else [])
  let t4 := t3 ++ (if clientTracked then [StartAction.attachClientHandlers] else [])
  let t5 := t4 ++ [StartAction.scorebotStart]
  if scorebotStartOk then
    (t5 ++ [StartAction.subscribeScorebotEvents, StartAction.awaitGameOver], Except.ok ())
  else
    (t5 ++ [StartAction.logErrorScorebot], Except.error StartError.scorebotError)

end Game

/-- C2 counterexample: with regulation limit 6 and overtime block 6, a
`GAME_OVER` score of `[16,4]` totals 20 rounds, an excess of 14, and
`⌈14/6⌉ = 3` is odd — so, contrary to the claim's "even inversion count,
no net swap", the code does reverse the reported pair. -/
theorem c2_counterexample :
    Game.gameOverScoreAdjust 6 6 [16, 4] = [4, 16] ∧
    ([4, 16] : List Nat) ≠ [16, 4] := by
  decide

/-- C2 (amended): the orchestrator reverses the reported score pair if
and only if the overtime block count `⌈excess/O⌉` is odd; scores within
regulation are untouched.  In particular, with regulation limit 6 and
overtime block 6, `[16,4]` (excess 14, count 3, odd) is swapped, a
13-round excess such as `[10,9]` (count 3, odd) is swapped, and a
12-round excess such as `[10,8]` (count 2, even) is not. -/
theorem c2_amended :
    (∀ (maxRounds maxRoundsOT : Nat) (score : List Nat),
      maxRoundsOT ≠ 0 →
      score.foldl (· + ·) 0 > maxRounds →
      Game.gameOverScoreAdjust maxRounds maxRoundsOT score
        = if SaveResult.ceilDiv (score.foldl (· + ·) 0 - maxRounds) maxRoundsOT % 2 = 1
          then score.reverse else score) ∧
    (∀ (maxRounds maxRoundsOT : Nat) (score : List Nat),
      score.foldl (· + ·) 0 ≤ maxRounds →
      Game.gameOverScoreAdjust maxRounds maxRoundsOT score = score) ∧
    Game.gameOverScoreAdjust 6 6 [16, 4] = [4, 16] ∧
    Game.gameOverScoreAdjust 6 6 [10, 9] = [9, 10] ∧
    Game.gameOverScoreAdjust 6 6 [10, 8] = [10, 8] := by
  refine ⟨?_, ?_, by decide, by decide, by decide⟩
  · intro maxRounds maxRoundsOT score hOT hgt
    simp [Game.gameOverScoreAdjust, hgt, hOT]
  · intro maxRounds maxRoundsOT score hle
    simp [Game.gameOverScoreAdjust, Nat.not_lt.mpr hle]

/-- C2 amended witness: the general rule of the theorem applied at
regulation limit 6, overtime block 6 and score `[16,4]`: the overtime
block count is `⌈14/6⌉ = 3`, odd, so the pair is reversed. -/
theorem c2_amended_witness :
    Game.gameOverScoreAdjust 6 6 [16, 4] = [4, 16] := by
  have h := c2_amended.1 6 6 [16, 4] (by decide) (by decide)
  simpa using h

/-- C7: if `rcon.init()` fails after exhausting its retries, match
orchestration does not abort: the error is caught and logged as a
warning, `start()` still launches the game client (for CSGO, after the
rcon attempt) and starts the log watcher, and the promise outcome is
exactly what it would have been had rcon connected — in particular it
never rejects with the rcon error. -/
theorem c7_rcon_failure_nonfatal (game : Game.GameKind) (sb ct : Bool) :
    (Game.serverStart game false sb ct).2 = (Game.serverStart game true sb ct).2 ∧
    (Game.serverStart game false sb ct).2 ≠ Except.error Game.StartError.rconConnectError ∧
    Game.StartAction.logWarnRcon ∈ (Game.serverStart game false sb ct).1 ∧
    Game.StartAction.scorebotStart ∈ (Game.serverStart game false sb ct).1 ∧
    Game.StartAction.launchClientCSGO ∈ (Game.serverStart Game.GameKind.csgo false sb ct).1 := by
  cases game <;> cases sb <;> cases ct <;> decide
